import Mathlib

/-!
Verification of the table detection / normalization engine.

Shallow embedding of `src/main/tablebeautifier/utils/table_formatter.py`
(class `TableFormatter`).  Text is modelled as `List Char` (Python `str`),
lines as `List Char` without embedded line terminators.  Python regular
expressions used by the source are translated into explicit recursive
scanners over the character list; the pandas calls made by
`_clean_and_format_table` are modelled by explicit grid passes whose
assumptions are documented at each definition.
-/

set_option maxRecDepth 100000

namespace TableBeautifier

/-- Text/line representation: a Python `str` as its list of characters. -/
abbrev Str := List Char

/-- Characters of a Lean string literal, used to write concrete inputs. -/
def chars (s : String) : Str := s.data

/-- Python `\s` (`re` default): space, tab, newline, carriage return,
vertical tab, form feed. -/
def isPySpace (c : Char) : Bool :=
  c = ' ' || c = '\t' || c = '\n' || c = '\r' || c = '\x0b' || c = '\x0c'

/-- ASCII decimal digit (`\d` in the source's patterns; the inputs the
source handles are ASCII so the unicode digits accepted by Python `\d`
are not modelled). -/
def isDigitChar (c : Char) : Bool := '0' ≤ c && c ≤ '9'

/-- Drop trailing characters satisfying `isPySpace` (right half of
Python `str.strip()`), written as a fold so that appending whitespace
on the right is definitionally transparent. -/
def dropTrailWs (l : Str) : Str :=
  l.foldr (fun c acc => if acc = [] && isPySpace c then [] else c :: acc) []

/-- Python `str.strip()`: remove leading and trailing whitespace. -/
def pyStrip (l : Str) : Str := dropTrailWs (l.dropWhile isPySpace)

/-- Python `str.count(c)` for a single character. -/
def countChar (c : Char) (l : Str) : Nat := l.count c

/-- Python `str.split(sep)` for a one-character separator:
`"".split(sep) = [""]`, empty fields are kept. -/
def splitOnChar (sep : Char) : Str → List Str
  | [] => [[]]
  | c :: cs =>
    match splitOnChar sep cs with
    | [] => [[]]
    | p :: ps => if c = sep then [] :: p :: ps else (c :: p) :: ps

/-- One step of Python `str.splitlines`: the first line, the rest of the
text after its terminator, and whether a terminator was present
(`\n`, `\r\n` and `\r` are the terminators that occur in chat text). -/
def breakLine : Str → Str × Str × Bool
  | [] => ([], [], false)
  | '\n' :: rest => ([], rest, true)
  | '\r' :: '\n' :: rest => ([], rest, true)
  | '\r' :: rest => ([], rest, true)
  | c :: rest =>
    let (l, r, t) := breakLine rest
    (c :: l, r, t)

/-- Fuelled worker for `splitlines` (each step consumes at least one
character, so `length` fuel suffices). -/
def splitlinesGo : Nat → Str → List Str
  | 0, _ => []
  | _ + 1, [] => []
  | fuel + 1, s =>
    let (l, r, _) := breakLine s
    l :: splitlinesGo fuel r

/-- Python `str.splitlines()`: no trailing empty line for a trailing
terminator, `[] ` for the empty string. -/
def splitlines (s : Str) : List Str := splitlinesGo s.length s

/-- `"\n".join(lines)`. -/
def joinNL (ls : List Str) : Str := (ls.intersperse ['\n']).flatten

/-- Python ASCII `str.lower()` (headers compared by the source are ASCII). -/
def pyLower (l : Str) : Str :=
  l.map fun c => if 'A' ≤ c && c ≤ 'Z' then Char.ofNat (c.toNat + 32) else c

/-- `p` is a prefix of `s` (Python `str.startswith`). -/
def startsWithStr : Str → Str → Bool
  | [], _ => true
  | _ :: _, [] => false
  | p :: ps, c :: cs => p = c && startsWithStr ps cs

/-- `p` is a suffix of `s` (Python `str.endswith`). -/
def endsWithStr (p s : Str) : Bool := startsWithStr p.reverse s.reverse

/-! ## Regex scanners of the source, as explicit recursions -/

/-- After a non-space character: does a run of ≥ 2 whitespace characters
followed by a non-space character begin here?  (`n` counts the whitespace
consumed so far; tail of the `\S\s{2,}\S` search.) -/
def wsThenNonspace : Nat → Str → Bool
  | _, [] => false
  | n, c :: cs => if isPySpace c then wsThenNonspace (n + 1) cs else decide (2 ≤ n)

/-- `re.search(r"\S\s{2,}\S", s)`: an internal multi-whitespace run with
non-space on both sides (`_intra_token_multispace_re`). -/
def hasIntraMultispace : Str → Bool
  | [] => false
  | c :: cs => (!isPySpace c && wsThenNonspace 0 cs) || hasIntraMultispace cs

/-- `re.search(r"\s{2,}", s)`: two consecutive whitespace characters
anywhere (`_multi_space_re` used by `_detect_delimiter`). -/
def hasMultiSpaceRun : Str → Bool
  | c :: c2 :: rest => (isPySpace c && isPySpace c2) || hasMultiSpaceRun (c2 :: rest)
  | _ => false

/-- Worker for `re.split(r"\s{2,}", s)`: `cur` is the part being built,
`pend` the whitespace run currently open (always all-whitespace).  A run
of length ≥ 2 is a separator (the regex is greedy, so each maximal run is
one separator); shorter runs stay inside the part. -/
def splitMsGo : Str → Str → Str → List Str
  | [], cur, pend => if 2 ≤ pend.length then [cur, []] else [cur ++ pend]
  | c :: cs, cur, pend =>
    if isPySpace c then splitMsGo cs cur (pend ++ [c])
    else if 2 ≤ pend.length then cur :: splitMsGo cs [c] []
    else splitMsGo cs (cur ++ pend ++ [c]) []

/-- `re.split(r"\s{2,}", s)`. -/
def splitOnMultispace (s : Str) : List Str := splitMsGo s [] []

/-- `_leading_pipe_re.sub("", line)`: drop one leading pipe together with
the whitespace around it (`^\s*\|\s*`); a line with no pipe after its
leading whitespace is unchanged. -/
def stripLeadingPipeLine (l : Str) : Str :=
  match l.dropWhile isPySpace with
  | '|' :: rest => rest.dropWhile isPySpace
  | _ => l

/-- `_trailing_pipe_re.sub("", line)`: drop one trailing pipe together
with the whitespace around it (`\s*\|\s*$`). -/
def stripTrailingPipeLine (l : Str) : Str :=
  match l.reverse.dropWhile isPySpace with
  | '|' :: rest => (rest.dropWhile isPySpace).reverse
  | _ => l

/-- Candidate delimiters, in the order the source lists them
(`self._delimiters = [",", "\t", ";", "|"]`). -/
def delimiters : List Char := [',', '\t', ';', '|']

/-- Number of non-empty cells after splitting on `sep` and stripping each
part.  The source splits with `re.split(r"\s*<sep>\s*", s)` and then
strips every part; since each match of that pattern contains exactly one
separator, the stripped parts coincide with those of a plain
single-character split followed by `strip`, which is what is written
here. -/
def nonEmptyCellsOn (sep : Char) (s : Str) : Nat :=
  ((splitOnChar sep s).map pyStrip).countP (fun p => p ≠ [])

/-- Non-empty cells of a pipe row: strip one leading and one trailing
pipe, split on `|`, strip parts, count the non-empty ones. -/
def pipeCellCount (s : Str) : Nat :=
  nonEmptyCellsOn '|' (stripTrailingPipeLine (stripLeadingPipeLine s))

/-- Non-empty cells after splitting on multi-whitespace runs. -/
def msCellCount (s : Str) : Nat :=
  ((splitOnMultispace s).map pyStrip).countP (fun p => p ≠ [])

/-- `TableFormatter._looks_like_table_line` (table_formatter.py, lines
161-196): pipe rows need ≥ 2 non-empty cells; otherwise a delimiter with
≥ 2 occurrences must yield ≥ 3 non-empty cells; otherwise an internal
multi-space run must split the line into ≥ 3 non-empty cells. -/
def looks_like_table_line (line : Str) : Bool :=
  if pyStrip line = [] then false
  else
    let s := pyStrip line
    if startsWithStr ['|'] s || s.contains '|' then
      decide (2 ≤ pipeCellCount s)
    else if delimiters.any fun d =>
        2 ≤ countChar d s && 3 ≤ nonEmptyCellsOn d s then
      true
    else if hasIntraMultispace s then
      decide (3 ≤ msCellCount s)
    else
      false

/-! ## Markdown divider rows and the quick heuristic `is_table_like` -/

/-- Consume one divider cell `:?-{2,}:?` followed by `\s*`; return the
rest of the line, or `none` when no such cell starts here.  The regex
quantifiers involved are greedy over disjoint character classes, so this
deterministic scan recognises exactly the regex's matches. -/
def mdCell (s : Str) : Option Str :=
  let s1 := match s with | ':' :: r => r | r => r
  if (s1.takeWhile fun c => c = '-').length < 2 then none
  else
    let s2 := s1.dropWhile fun c => c = '-'
    let s3 := match s2 with | ':' :: r => r | r => r
    some (s3.dropWhile isPySpace)

/-- Tail of the divider pattern after the first cell:
`(\|\s*:?-{2,}:?\s*)*\|?\s*$`.  Fuel: each iteration consumes the `|`. -/
def mdAfterFirstCell : Nat → Str → Bool
  | _, [] => true
  | 0, _ => false
  | fuel + 1, s =>
    match s with
    | '|' :: r =>
      let r2 := r.dropWhile isPySpace
      (match mdCell r2 with
       | some rest => mdAfterFirstCell fuel rest
       | none => decide (r2 = []))
    | _ => false

/-- `_md_divider_re.match(line)`:
`^\s*\|?\s*:?-{2,}:?\s*(\|\s*:?-{2,}:?\s*)*\|?\s*$`. -/
def mdDividerMatch (s : Str) : Bool :=
  let s1 := s.dropWhile isPySpace
  let s2 := match s1 with | '|' :: r => r.dropWhile isPySpace | r => r
  match mdCell s2 with
  | some rest => mdAfterFirstCell s.length rest
  | none => false

example : mdDividerMatch (chars "|---|----|") = true := by decide
example : mdDividerMatch (chars " :--: | --- ") = true := by decide
example : mdDividerMatch (chars "----") = true := by decide
example : mdDividerMatch (chars "|-|-|") = false := by decide
example : mdDividerMatch (chars "a---b") = false := by decide

/-- The non-blank lines of a text (`[ln for ln in t.splitlines() if
ln.strip()]`). -/
def nonBlankLinesOf (t : Str) : List Str :=
  (splitlines t).filter fun ln => !(pyStrip ln).isEmpty

/-- Lines 55-58 of `is_table_like`: the content it inspects — the
stripped text, with one layer of ```-fences removed and re-stripped when
the whole text is fence-wrapped. -/
def itl_inner (text : Str) : Str :=
  let t0 := pyStrip text
  if startsWithStr (chars "```") t0 && endsWithStr (chars "```") t0
  then pyStrip ((t0.drop 3).take (t0.length - 6)) else t0

/-- The non-blank lines `is_table_like` classifies. -/
def itl_lines (text : Str) : List Str := nonBlankLinesOf (itl_inner text)

/-- `TableFormatter.is_table_like` (table_formatter.py, lines 46-83):
strip one layer of ```-fences, sample the first 6 non-blank lines, and
report table-likeness when one delimiter has ≥ 2 occurrences on at least
`max(1, sample_len // 2)` sampled lines, or that many sampled lines have
an internal multi-whitespace run, or the first two non-blank lines look
like a Markdown pipe header plus divider. -/
def is_table_like (text : Str) : Bool :=
  if pyStrip text = [] then false
  else if (itl_lines text).length < 2 then false
  else if delimiters.any (fun d =>
      decide (max 1 (((itl_lines text).take 6).length / 2) ≤
        ((itl_lines text).take 6).countP fun ln => decide (2 ≤ countChar d ln))) then
    true
  else if max 1 (((itl_lines text).take 6).length / 2) ≤
      ((itl_lines text).take 6).countP (fun ln => hasIntraMultispace ln) then
    true
  else
    match itl_lines text with
    | l0 :: l1 :: _ => l0.contains '|' && mdDividerMatch l1
    | _ => false

example : is_table_like (chars "A,B,C\n1,2,3\n4,5,6\n") = true := by decide
example : is_table_like (chars "just one line, no more, ok") = false := by decide
example : is_table_like (chars "| a | b |\n|---|---|\n| 1 | 2 |") = true := by decide
example : is_table_like (chars "```\nfor i in range(10):\n    print(i)\n```") = false := by
  decide

/-! ## Delimiter inference -/

/-- Result of `_detect_delimiter`: a single-character separator or the
multi-space pattern `r"\s{2,}"`. -/
inductive Delim where
  | ch (c : Char)
  | ms
  deriving DecidableEq

/-- Python `max(pairs, key=lambda kv: kv[1])`: the first pair carrying
the maximal second component (Python's `max` keeps the earlier element
on ties). -/
def pyMaxBySnd : List (Char × Nat) → Char × Nat
  | [] => (',', 0)
  | p :: ps => ps.foldl (fun acc q => if acc.2 < q.2 then q else acc) p

/-- `TableFormatter._detect_delimiter` (table_formatter.py, lines
336-365): count candidate delimiters on the first non-empty (stripped)
line; multi-space wins when present and no candidate reaches 2; else the
first candidate (in the order `, \t ; |`) with the highest count; comma
when no candidate occurs at all. -/
def detect_delimiter (text : Str) : Delim :=
  let first := (((splitlines text).map pyStrip).filter fun l => !l.isEmpty).headD
    (pyStrip text)
  let counts := delimiters.map fun d => (d, countChar d first)
  if hasMultiSpaceRun first && decide ((counts.map Prod.snd).foldr max 0 < 2) then
    Delim.ms
  else
    let best := pyMaxBySnd counts
    if 1 ≤ best.2 then Delim.ch best.1 else Delim.ch ','

example : detect_delimiter (chars "A,B,C\n1,2,3") = Delim.ch ',' := by decide
example : detect_delimiter (chars "a  b  c,x\nd  e  f") = Delim.ms := by decide
example : detect_delimiter (chars "plain") = Delim.ch ',' := by decide
example : detect_delimiter (chars "a,b\tc,d\te") = Delim.ch ',' := by decide

/-! ## The detection loop of `process_all_inputs` (lines 108-132)

The loop classifies every line, accumulates contiguous table-like lines
into the current block and flushes the block (paired with the context
accumulated immediately before it) on the first non-table-like line;
at the end an open block is flushed, otherwise the remaining context
lines become the trailing context. -/

/-- Worker: `curT` is `current_table_lines`, `curC` is
`current_context_lines`.  A result pair is (block lines, context lines
preceding it). -/
def detectGo : List Str → List Str → List Str → List (List Str × List Str) × List Str
  | [], curT, curC =>
    if curT.isEmpty then ([], curC) else ([(curT, curC)], [])
  | l :: rest, curT, curC =>
    if looks_like_table_line l then detectGo rest (curT ++ [l]) curC
    else if curT.isEmpty then detectGo rest [] (curC ++ [l])
    else
      let (ts, tr) := detectGo rest [] [l]
      ((curT, curC) :: ts, tr)

/-- The detection phase on the line list produced by `splitlines`. -/
def detect_blocks (lines : List Str) : List (List Str × List Str) × List Str :=
  detectGo lines [] []

/-- Blocks and contexts joined with `"\n"`, as the source stores them:
`tables.append(("\n".join(current_table_lines), "\n".join(current_context_lines)))`. -/
def detect_tables (lines : List Str) : List (Str × Str) × List Str :=
  ((detect_blocks lines).1.map fun p => (joinNL p.1, joinNL p.2),
   (detect_blocks lines).2)

/-- `len([ln for ln in raw_table.splitlines() if ln.strip()])`. -/
def nonBlankLineCount (raw : Str) : Nat :=
  ((splitlines raw).filter fun l => !(pyStrip l).isEmpty).length

/-- The per-block processing loop of `process_all_inputs` (lines
136-153), parametrised by the normalizer: `clean raw = none` models an
exception escaping `_clean_and_format_table` for that block (the
`except` arm), which appends the raw block text to the trailing context;
a successful parse is dropped to the trailing context as well when it
has no rows, no columns, or the block had fewer than 2 non-blank lines.
Returns (processed tables, raw texts appended to the trailing
context). -/
def process_blocks (clean : Str → Option (Str × Nat × Nat)) :
    List (Str × Str) → List (Str × Str × Nat × Nat) × List Str
  | [] => ([], [])
  | (raw, ctx) :: rest =>
    match clean raw with
    | none =>
      let (ps, ts) := process_blocks clean rest
      (ps, raw :: ts)
    | some (csv, r, c) =>
      let (ps, ts) := process_blocks clean rest
      if r = 0 ∨ c = 0 ∨ nonBlankLineCount raw < 2 then (ps, raw :: ts)
      else ((pyStrip ctx, csv, r, c) :: ps, ts)

/-! ## `_clean_and_format_table` (lines 201-331)

The single place the source invokes pandas.  The dataframe is modelled
column-major: a list of `(column name, cell list)` pairs, all cell lists
of equal length.  A cell is missing (`NaN`), a string, an `int64` value,
or a `float64` value; floats only arise from decimal literals here and
are modelled as sign/integer-part/fraction-digits triples (binary
rounding of pandas floats is not modelled — none of the evaluated inputs
produce fractional values). -/

/-- A pandas cell. -/
inductive PCell where
  | na
  | s (v : Str)
  | int (n : Int)
  | dec (neg : Bool) (m : Nat) (frac : Str)
  deriving DecidableEq

/-- Decimal digits of a natural number. -/
def natReprAux : Nat → Nat → Str
  | 0, _ => []
  | fuel + 1, n =>
    if n < 10 then [Char.ofNat (48 + n)]
    else natReprAux fuel (n / 10) ++ [Char.ofNat (48 + n % 10)]

/-- `str(n)` for a natural number. -/
def natRepr (n : Nat) : Str := natReprAux (n + 1) n

/-- `str(i)` for a Python int. -/
def intRepr (i : Int) : Str :=
  if i < 0 then '-' :: natRepr i.natAbs else natRepr i.natAbs

example : natRepr 0 = chars "0" := by decide
example : natRepr 210 = chars "210" := by decide
example : intRepr (-12) = chars "-12" := by decide

/-- `str(v)` as applied by the source to a cell (`astype(str)` /
`str(v)`): a missing value stringifies to `"nan"`. -/
def astypeStr : PCell → Str
  | .na => chars "nan"
  | .s v => v
  | .int n => intRepr n
  | .dec neg m f => (if neg then ['-'] else []) ++ natRepr m ++ '.' :: f

/-- Numeric value of a digit string. -/
def natVal (l : Str) : Nat := l.foldl (fun a c => 10 * a + (c.toNat - 48)) 0

/-- Non-empty and all decimal digits. -/
def allDigits (l : Str) : Bool := !l.isEmpty && l.all isDigitChar

/-- `pd.to_numeric(t, errors="coerce")` on one stripped, non-empty
string: optional sign, then either a plain integer or a decimal with a
dot.  Anything else (including scientific notation and `nan`/`inf`
spellings, which pandas turns into missing values anyway) is `none`,
i.e. missing. -/
def toNumeric (t : Str) : Option PCell :=
  let neg : Bool := match t with | '-' :: _ => true | _ => false
  let t1 := match t with | '+' :: r => r | '-' :: r => r | r => r
  match splitOnChar '.' t1 with
  | [a] =>
    if allDigits a then
      some (.int (if neg then -(natVal a : Int) else (natVal a : Int)))
    else none
  | [a, b] =>
    if (allDigits a || a.isEmpty) && (allDigits b || b.isEmpty) &&
        !(a.isEmpty && b.isEmpty) then
      some (.dec neg (natVal a) (if b.isEmpty then ['0'] else b))
    else none
  | _ => none

example : toNumeric (chars "42") = some (PCell.int 42) := by decide
example : toNumeric (chars "-7") = some (PCell.int (-7)) := by decide
example : toNumeric (chars "1,2") = none := by decide
example : toNumeric (chars "3.5") = some (PCell.dec false 3 (chars "5")) := by decide

/-- `(?:,\d{3})+` — one or more comma-separated 3-digit groups,
consuming the whole rest of the integer part. -/
def groupsOk : Str → Bool
  | ',' :: a :: b :: c :: rest =>
    isDigitChar a && isDigitChar b && isDigitChar c && (rest.isEmpty || groupsOk rest)
  | _ => false

/-- Integer part of the source's numeric-token pattern:
`\d{1,3}(?:,\d{3})+|\d+`.  (The greedy leading digit run must be the
full consecutive run: a longer run leaves a digit where the pattern
requires a comma.) -/
def intTokenOk (a : Str) : Bool :=
  allDigits a ||
    (let d1 := a.takeWhile isDigitChar
     decide (1 ≤ d1.length) && decide (d1.length ≤ 3) &&
       groupsOk (a.dropWhile isDigitChar))

/-- `is_numeric_token` of `_first_row_header_vs_second_row_data`:
`re.fullmatch(r"[+-]?(?:\d{1,3}(?:,\d{3})+|\d+)(?:\.\d+)?", s)`. -/
def isNumericToken (t : Str) : Bool :=
  let t1 := match t with | '+' :: r => r | '-' :: r => r | r => r
  match splitOnChar '.' t1 with
  | [a] => intTokenOk a
  | [a, b] => intTokenOk a && allDigits b
  | _ => false

example : isNumericToken (chars "1,234.50") = true := by decide
example : isNumericToken (chars "12,34") = false := by decide
example : isNumericToken (chars "abc") = false := by decide
example : isNumericToken (chars "-42") = true := by decide

/-- `_first_row_header_vs_second_row_data` (lines 400-420): row 0 mostly
non-numeric (≥ 60 % of its non-blank cells) and row 1 mostly numeric
(≥ 50 %).  The Python thresholds are float divisions compared with `0.6`
and `0.5`; both are exact at the rationals 3/5 and 1/2 used here. -/
def first_row_header_vs_second_row_data (row0 row1 : List PCell) : Bool :=
  let r0 := row0.map fun v => pyStrip (astypeStr v)
  let r1 := row1.map fun v => pyStrip (astypeStr v)
  let nonNumeric0 := r0.countP fun s => !s.isEmpty && !isNumericToken s
  let numeric1 := r1.countP fun s => !s.isEmpty && isNumericToken s
  let total0 := r0.countP fun s => !s.isEmpty
  let total1 := r1.countP fun s => !s.isEmpty
  !(total0 = 0 : Bool) && !(total1 = 0 : Bool) &&
    decide (3 * total0 ≤ 5 * nonNumeric0) && decide (total1 ≤ 2 * numeric1)

/-- `[A-Za-zÀ-ſ]` — letters as the source counts them. -/
def isLetterLike (c : Char) : Bool :=
  ('A' ≤ c && c ≤ 'Z') || ('a' ≤ c && c ≤ 'z') ||
    (0xC0 ≤ c.toNat && c.toNat ≤ 0x17F)

/-- ASCII fragment of Python `\w` (letters, digits, underscore), enough
for the header cells the source classifies. -/
def isWordChar (c : Char) : Bool := isLetterLike c || isDigitChar c || c = '_'

/-- `_first_row_looks_like_header` (lines 367-398): among non-blank,
non-`nan`/`null` cells, ≥ 65 % must contain letters, or be digit-free
with some symbol.  0.65 = 13/20 exactly. -/
def first_row_looks_like_header (row : List PCell) : Bool :=
  let cells := (row.map fun v => pyStrip (astypeStr v)).filter fun s =>
    !s.isEmpty && !(pyLower s = chars "nan" : Bool) && !(pyLower s = chars "null" : Bool)
  let total := cells.length
  let textLike := cells.countP fun s =>
    s.any isLetterLike ||
      (!s.any isDigitChar && s.any fun c => !isWordChar c && !isPySpace c)
  !(total = 0 : Bool) && decide (13 * total ≤ 20 * textLike)

/-- `ROW_COLUMN_NAMES = {"#", "row", "id", "index"}`. -/
def ROW_COLUMN_NAMES : List Str := [chars "#", chars "row", chars "id", chars "index"]

/-- `_has_row_index_column` (lines 422-436).  Note: the body checks only
the first column's *name*; the 1..n value-sequence check announced by
its docstring is absent (`return False` follows the name check
directly). -/
def has_row_index_column (names : List Str) : Bool :=
  match names.head? with
  | none => false
  | some n => ROW_COLUMN_NAMES.contains (pyLower (pyStrip n))

example : has_row_index_column [chars " ID ", chars "x"] = true := by decide
example : has_row_index_column [chars "Column_1"] = false := by decide
example : looks_like_table_line (chars "A,B,C") = true := by decide
example : looks_like_table_line (chars "1,2,3") = true := by decide
example : looks_like_table_line (chars "| a | b |") = true := by decide
example : looks_like_table_line (chars "| a |") = false := by decide
example : looks_like_table_line (chars "hello, world") = false := by decide
example : looks_like_table_line (chars "a  b  c") = true := by decide
example : looks_like_table_line (chars "  a  b") = false := by decide
example : looks_like_table_line (chars "   ") = false := by decide
example : looks_like_table_line (chars "a, b, c, and d") = true := by decide

/-- `_inline_code_re.sub(r"\1", s)`: replace every `` `inner` `` pair by
`inner`, left to right; an unpaired backtick stays.  Fuel: each
rewrite consumes two backticks. -/
def removeInlineAux : Nat → Str → Str
  | 0, s => s
  | fuel + 1, s =>
    let a := s.takeWhile fun c => !(c = '`')
    match s.dropWhile fun c => !(c = '`') with
    | [] => s
    | _ :: b =>
      match b.dropWhile fun c => !(c = '`') with
      | [] => s
      | _ :: d => a ++ (b.takeWhile fun c => !(c = '`')) ++ removeInlineAux fuel d

/-- `_inline_code_re.sub(r"\1", s)`. -/
def removeInlineCode (s : Str) : Str := removeInlineAux s.length s

example : removeInlineCode (chars "a `b` c`") = chars "a b c`" := by decide

/-- `skipinitialspace=True`: spaces immediately after a delimiter are
dropped (the first field of a line has no preceding delimiter). -/
def skipInitSpace : List Str → List Str
  | [] => []
  | f :: fs => f :: fs.map fun g => g.dropWhile fun c => c = ' '

/-- A parsed row: with `dtype=str`, an empty field is a missing value
(`NaN`), any other field is kept as a string. -/
def rowCells (fields : List Str) : List PCell :=
  fields.map fun f => if f.isEmpty then PCell.na else PCell.s f

/-- `pd.read_csv(..., header=None, skip_blank_lines=True, dtype=str)`
with the per-line field splitter `splitLine`: empty lines are skipped,
the first row fixes the column count, a later row with more fields makes
both the C and the python engine raise (hence `none`, the exception
escaping `_clean_and_format_table`), shorter rows are padded with
missing values.  Quoting is not modelled — no input evaluated below
contains a quoted cell. -/
def readGridWith (splitLine : Str → List Str) (text : Str) :
    Option (List (List PCell)) :=
  let rows := ((splitlines text).filter fun l => !l.isEmpty).map
    fun l => rowCells (splitLine l)
  match rows with
  | [] => some []
  | r0 :: _ =>
    if rows.any fun r => r0.length < r.length then none
    else some (rows.map fun r => r ++ List.replicate (r0.length - r.length) PCell.na)

/-- Dispatch on the inferred delimiter (`sep=delim` — single character
for the C engine, the `\s{2,}` regex for the python engine). -/
def readGrid : Delim → Str → Option (List (List PCell))
  | .ch c, text => readGridWith (fun l => skipInitSpace (splitOnChar c l)) text
  | .ms, text => readGridWith (fun l => splitOnMultispace l) text

/-- Columns of an (already padded) row-major grid. -/
def colsOfRows (rows : List (List PCell)) : List (List PCell) :=
  match rows with
  | [] => []
  | r0 :: _ => (List.range r0.length).map fun j => rows.map fun r => r.getD j PCell.na

/-- `df.dropna(axis=1, how="all")` before column names exist. -/
def dropAllNaCols (cols : List (List PCell)) : List (List PCell) :=
  cols.filter fun col => !(col.all fun v => v = PCell.na)

/-- `df.dropna(axis=1, how="all")` on named columns. -/
def dropAllNaNamed (t : List (Str × List PCell)) : List (Str × List PCell) :=
  t.filter fun p => !(p.2.all fun v => v = PCell.na)

/-- `df.iloc[i].tolist()` of the column-major grid. -/
def rowAt (cols : List (List PCell)) (i : Nat) : List PCell :=
  cols.map fun col => col.getD i PCell.na

/-- Positional placeholder `Column_<k>`. -/
def columnName (k : Nat) : Str := chars "Column_" ++ natRepr k

/-- `[h if h else f"Column_{i+1}" for i, h in enumerate(header_values)]`:
only *blank* names are replaced (duplicates are kept as they are). -/
def fillBlanksFrom : Nat → List Str → List Str
  | _, [] => []
  | i, h :: hs => (if h.isEmpty then columnName (i + 1) else h) :: fillBlanksFrom (i + 1) hs

/-- Header names after blank-filling. -/
def fillBlankHeaders (hs : List Str) : List Str := fillBlanksFrom 0 hs

example : fillBlankHeaders [chars "A", [], chars "A"] =
    [chars "A", chars "Column_2", chars "A"] := by decide

/-- `re.search(r"\d,\d", s)`. -/
def hasDigitCommaDigit : Str → Bool
  | a :: b :: c :: rest =>
    (isDigitChar a && b = ',' && isDigitChar c) || hasDigitCommaDigit (b :: c :: rest)
  | _ => false

/-- `str.replace(",", "")`. -/
def removeCommas (l : Str) : Str := l.filter fun c => !(c = ',')

/-- `df[col].astype(str).str.strip().replace({"": pd.NA})` on one cell. -/
def cleanedCell (v : PCell) : PCell :=
  let t := pyStrip (astypeStr v)
  if t.isEmpty then PCell.na else PCell.s t

/-- The numeric-coercion pass of lines 297-318 for a column whose name
is unique: strip and blank-out cells, drop thousands separators when a
`\d,\d` pattern occurs anywhere in the column, convert with
`to_numeric(errors="coerce")`, and adopt the numeric column when ≥ 60 %
(exactly 3/5) of the non-blank cells converted; otherwise keep the
trimmed strings with missing values rendered as `""`.  When the adopted
numeric column contains a missing or fractional value it is `float64`,
so integers pick up a trailing `.0` in the output. -/
def coerceColumn (col : List PCell) : List PCell :=
  let cleaned := col.map cleanedCell
  let hasDC := cleaned.any fun v =>
    match v with | PCell.s t => hasDigitCommaDigit t | _ => false
  let candidate := if hasDC then
      cleaned.map fun v =>
        match v with | PCell.s t => PCell.s (removeCommas t) | w => w
    else cleaned
  let numeric := candidate.map fun v =>
    match v with | PCell.s t => (toNumeric t).getD PCell.na | _ => PCell.na
  let nonNa := numeric.countP fun v => !(v = PCell.na : Bool)
  let nonEmpty := cleaned.countP fun v => !(v = PCell.na : Bool)
  if (decide (0 < nonEmpty)) && decide (3 * nonEmpty ≤ 5 * nonNa) then
    if numeric.any fun v =>
        (v = PCell.na : Bool) ||
          (match v with | PCell.dec _ _ _ => true | _ => false) then
      numeric.map fun v =>
        match v with
        | PCell.int n => PCell.dec (decide (n < 0)) n.natAbs ['0']
        | w => w
    else numeric
  else
    cleaned.map fun v => match v with | PCell.na => PCell.s [] | w => w

/-- The `except` arm of the coercion loop.  For a duplicated column name
`df[col]` is a two-column frame, `.str` raises `AttributeError`, and the
handler stores `df[col].astype(str).fillna("")`: every cell stringified
(a missing value becomes the literal string `"nan"`, since `astype(str)`
runs before `fillna`). -/
def stringifyColumn (col : List PCell) : List PCell :=
  col.map fun v => PCell.s (astypeStr v)

/-- `for col in df.columns: ...` — a uniquely named column runs the
`try` body (`coerceColumn`); a duplicated name raises inside `try` and
ends up stringified (both occurrences, written twice, idempotently;
pandas ≥ 1.5 sets a duplicated key from an equally-shaped frame
positionally). -/
def coerceAll (t : List (Str × List PCell)) : List (Str × List PCell) :=
  let names := t.map Prod.fst
  t.map fun p =>
    if 2 ≤ names.count p.1 then (p.1, stringifyColumn p.2)
    else (p.1, coerceColumn p.2)

/-- Minimal CSV quoting of `df.to_csv` (`QUOTE_MINIMAL`): quote a field
containing the separator, a quote or a line break, doubling quotes. -/
def csvQuote (s : Str) : Str :=
  if s.any fun c => c = ',' || c = '"' || c = '\n' || c = '\r' then
    '"' :: (s.foldr (fun c acc =>
      (if c = '"' then ['"', '"'] else [c]) ++ acc) []) ++ ['"']
  else s

/-- One rendered cell of `to_csv`: missing → empty, strings quoted as
needed, `int64` plain, `float64` with its decimal digits. -/
def renderCell : PCell → Str
  | .na => []
  | .s v => csvQuote v
  | .int n => intRepr n
  | .dec neg m f => (if neg then ['-'] else []) ++ natRepr m ++ '.' :: f

/-- `",".join(fields)`. -/
def joinCommas (ls : List Str) : Str := (ls.intersperse [',']).flatten

/-- `df.to_csv(out, index=False)` followed by `.rstrip("\n")`: header
line then one line per row, each terminated by `\n`, trailing newlines
stripped. -/
def toCsvStr (names : List Str) (cols : List (List PCell)) (nRows : Nat) : Str :=
  let lines := joinCommas (names.map csvQuote) ::
    (List.range nRows).map fun i => joinCommas ((rowAt cols i).map renderCell)
  (((lines.map fun l => l ++ ['\n']).flatten).reverse.dropWhile
    fun c => c = '\n').reverse

/-- Lines 297-331: numeric coercion, final `dropna(axis=1)`, CSV
serialization and the row/column counts. -/
def finishTable (t : List (Str × List PCell)) (nRows : Nat) : Option (Str × Nat × Nat) :=
  let t2 := dropAllNaNamed (coerceAll t)
  some (toCsvStr (t2.map Prod.fst) (t2.map Prod.snd) nRows, nRows, t2.length)

/-- `TableFormatter._clean_and_format_table` (lines 201-331).  `none`
models an exception escaping the function (unparseable grid, or
`df.insert` refusing a second `Index` column); `some (csv, rows, cols)`
is its return value. -/
def clean_and_format_table (rawTable : Str) : Option (Str × Nat × Nat) :=
  let block0 := pyStrip rawTable
  let block1 := if startsWithStr (chars "```") block0 then block0.drop 3 else block0
  let block2 := if endsWithStr (chars "```") block1 then
      block1.take (block1.length - 3) else block1
  let block := removeInlineCode block2
  let lines := splitlines block
  let hasMdDiv := lines.any mdDividerMatch
  let cleanedLines := (lines.filter fun l => !mdDividerMatch l).map
    fun l => stripTrailingPipeLine (stripLeadingPipeLine l)
  let tableText := pyStrip (joinNL cleanedLines)
  if tableText.isEmpty then some ([], 0, 0)
  else
    match readGrid (detect_delimiter tableText) tableText with
    | none => none
    | some rows =>
      let cols0 := dropAllNaCols (colsOfRows rows)
      let nRows0 := rows.length
      if cols0.isEmpty || decide (nRows0 = 0) then some ([], 0, 0)
      else
        let headerLike :=
          (if 2 ≤ nRows0 then
            first_row_header_vs_second_row_data (rowAt cols0 0) (rowAt cols0 1)
          else first_row_looks_like_header (rowAt cols0 0)) || hasMdDiv
        let named :=
          if headerLike then
            ((fillBlankHeaders ((rowAt cols0 0).map fun v => pyStrip (astypeStr v))).zip
              (cols0.map fun col => col.drop 1), nRows0 - 1)
          else
            (((List.range cols0.length).map fun i => columnName (i + 1)).zip cols0,
             nRows0)
        let t1 := dropAllNaNamed named.1
        let nRows := named.2
        if has_row_index_column (t1.map Prod.fst) then finishTable t1 nRows
        else if (t1.map Prod.fst).contains (chars "Index") then
          none
        else
          finishTable
            ((chars "Index", (List.range nRows).map fun k => PCell.int (k + 1 : Int)) :: t1)
            nRows

/-- Lines 101-106 of `process_all_inputs`: remove one layer of
whole-message ```-fences (`stripped_top[3:-3]`, not re-stripped). -/
def top_text (text : Str) : Str :=
  let strippedTop := pyStrip text
  if startsWithStr (chars "```") strippedTop && endsWithStr (chars "```") strippedTop
  then (strippedTop.drop 3).take (strippedTop.length - 6)
  else text

/-- Lines 98-156 assembled: detection loop over the fence-stripped
lines, then per-block normalization, the trailing context joined with
`"\n"` and stripped. -/
def process_all_inputs (text : Str) : List (Str × Str × Nat × Nat) × Str :=
  if text.isEmpty then ([], [])
  else
    let lines := splitlines (top_text text)
    let det := detect_tables lines
    let proc := process_blocks clean_and_format_table det.1
    (proc.1, pyStrip (joinNL (det.2 ++ proc.2)))

-- Sanity checks of the primitives on concrete data.
example : chars "ab" = ['a', 'b'] := rfl
example : pyStrip (chars "  a b  ") = chars "a b" := by decide
example : splitlines (chars "a\nb\n") = [chars "a", chars "b"] := by decide
example : splitlines (chars "") = [] := by decide
example : splitlines (chars "\n") = [[]] := by decide
example : splitOnChar ',' (chars "a,,b") = [chars "a", [], chars "b"] := by decide
example : joinNL [chars "a", chars "b"] = chars "a\nb" := by decide
example : pyLower (chars "AbC#") = chars "abc#" := by decide
example : startsWithStr (chars "``" ) (chars "```x") = true := by decide

/-! ## Definitions used only to state claims -/

/-- Column names of a produced CSV string: the fields of its first
line. -/
def csvHeaderNames (csv : Str) : List Str :=
  splitOnChar ',' ((splitlines csv).headD [])

/-- A well-formed detected block: non-empty, every line table-like, and
every line of its preceding context non-table-like. -/
def blockOk (p : List Str × List Str) : Bool :=
  !p.1.isEmpty && p.1.all looks_like_table_line &&
    p.2.all fun l => !looks_like_table_line l

/-- The delimiter chooser as §4.2 step 4 words it, with the tie-break
preference given by the order of `pref`: examine the first non-empty
stripped line; choose the multi-space pattern when a multi-space run is
present and no candidate reaches 2 occurrences; otherwise the candidate
with the highest count, ties broken by the order of `pref`; comma when
no candidate occurs at all. -/
def specDetectDelimiter (pref : List Char) (text : Str) : Delim :=
  let first := (((splitlines text).map pyStrip).filter fun l => !l.isEmpty).headD
    (pyStrip text)
  let m := (delimiters.map fun d => countChar d first).foldr max 0
  if hasMultiSpaceRun first && decide (m < 2) then Delim.ms
  else if m = 0 then Delim.ch ','
  else Delim.ch ((pref.filter fun d => countChar d first = m).headD ',')

/-- The delimiter-consistency signal as claim C7 words it: at least 3
sampled lines with ≥ 2 occurrences of the same candidate delimiter, the
qualifying per-line counts within a factor of 2 of each other. -/
@[reducible] def claimDelimConsistency (sample : List Str) : Prop :=
  ∃ d ∈ delimiters,
    3 ≤ sample.countP (fun ln => decide (2 ≤ countChar d ln)) ∧
      ∀ a ∈ sample, ∀ b ∈ sample,
        2 ≤ countChar d a → 2 ≤ countChar d b →
          countChar d a ≤ 2 * countChar d b

/-- The delimiter-consistency signal the code actually implements:
some candidate delimiter has ≥ 2 occurrences on at least
`max(1, ⌊sample/2⌋)` of the sampled lines — no variance bound. -/
@[reducible] def specDelimSignal (sample : List Str) : Prop :=
  ∃ d ∈ delimiters,
    max 1 (sample.length / 2) ≤ sample.countP fun ln => decide (2 ≤ countChar d ln)

/-- The multi-space signal: an internal multi-whitespace run on at least
`max(1, ⌊sample/2⌋)` sampled lines. -/
@[reducible] def specMsSignal (sample : List Str) : Prop :=
  max 1 (sample.length / 2) ≤ sample.countP fun ln => hasIntraMultispace ln

/-- The Markdown-pipe signal: a pipe in the first non-blank line and a
header-divider as the second. -/
def specMdSignal (lines : List Str) : Prop :=
  ∃ l0 l1 rest, lines = l0 :: l1 :: rest ∧
    l0.contains '|' = true ∧ mdDividerMatch l1 = true

/-- Append a character to the last part of a split (the shape
`re.split` takes when a separator-free suffix is appended). -/
def appendLastOne (c : Char) : List Str → List Str
  | [] => [[c]]
  | [p] => [p ++ [c]]
  | p :: ps => p :: appendLastOne c ps

/-- `_looks_like_table_line` as claim C5 words it, reading "the line" as
the raw line: a line containing a pipe is table-like iff its pipe row
has ≥ 2 non-empty cells; otherwise it is table-like if some candidate
delimiter occurs ≥ 2 times in the line and splits it into ≥ 3 non-empty
cells; otherwise a line with an internal multi-whitespace run is
table-like iff the multi-space split of its content has ≥ 3 non-empty
cells; blank or whitespace-only lines never are. -/
def claimTableLikeLine (line : Str) : Bool :=
  if pyStrip line = [] then false
  else if line.contains '|' then decide (2 ≤ pipeCellCount (pyStrip line))
  else if delimiters.any fun d =>
      2 ≤ countChar d line && 3 ≤ nonEmptyCellsOn d line then
    true
  else if hasIntraMultispace line then decide (3 ≤ msCellCount (pyStrip line))
  else false

/-- What the processing loop emits for one detected block: `none` when
the block is demoted to trailing context (normalizer exception, zero
rows/columns, or fewer than 2 non-blank lines), otherwise the processed
tuple with its stripped preceding context. -/
def emitOf (clean : Str → Option (Str × Nat × Nat)) (p : Str × Str) :
    Option (Str × Str × Nat × Nat) :=
  match clean p.1 with
  | none => none
  | some (csv, r, c) =>
    if r = 0 ∨ c = 0 ∨ nonBlankLineCount p.1 < 2 then none
    else some (pyStrip p.2, csv, r, c)

/-! ## Theorems -/

theorem detectGo_reconstruct (lines : List Str) : ∀ curT curC : List Str,
    ((detectGo lines curT curC).1.map fun p => p.2 ++ p.1).flatten ++
        (detectGo lines curT curC).2 = curC ++ curT ++ lines := by
  induction lines with
  | nil =>
    intro curT curC
    cases curT <;> simp [detectGo]
  | cons l rest ih =>
    intro curT curC
    by_cases h : looks_like_table_line l = true
    · have hstep : detectGo (l :: rest) curT curC = detectGo rest (curT ++ [l]) curC := by
        simp [detectGo, h]
      rw [hstep, ih]
      simp
    · rw [Bool.not_eq_true] at h
      cases curT with
      | nil =>
        have hstep : detectGo (l :: rest) [] curC = detectGo rest [] (curC ++ [l]) := by
          simp [detectGo, h]
        rw [hstep, ih]
        simp
      | cons t ts =>
        rcases hdet : detectGo rest [] [l] with ⟨bs, tr⟩
        have hstep : detectGo (l :: rest) (t :: ts) curC = ((t :: ts, curC) :: bs, tr) := by
          simp [detectGo, h, hdet]
        have ihr := ih [] [l]
        rw [hdet] at ihr
        simp only at ihr
        rw [hstep]
        simp only [List.map_cons, List.flatten_cons, List.append_assoc]
        rw [ihr]
        simp


theorem detectGo_wf (lines : List Str) : ∀ curT curC : List Str,
    curT.all looks_like_table_line = true →
    curC.all (fun l => !looks_like_table_line l) = true →
    (detectGo lines curT curC).1.all blockOk = true ∧
    (detectGo lines curT curC).2.all (fun l => !looks_like_table_line l) = true := by
  induction lines with
  | nil =>
    intro curT curC hT hC
    cases curT with
    | nil => simpa [detectGo] using hC
    | cons t ts => simp_all [detectGo, blockOk]
  | cons l rest ih =>
    intro curT curC hT hC
    by_cases h : looks_like_table_line l = true
    · have hstep : detectGo (l :: rest) curT curC = detectGo rest (curT ++ [l]) curC := by
        simp [detectGo, h]
      rw [hstep]
      exact ih (curT ++ [l]) curC (by simp [hT, h]) hC
    · rw [Bool.not_eq_true] at h
      cases curT with
      | nil =>
        have hstep : detectGo (l :: rest) [] curC = detectGo rest [] (curC ++ [l]) := by
          simp [detectGo, h]
        rw [hstep]
        exact ih [] (curC ++ [l]) rfl (by simp [hC, h])
      | cons t ts =>
        rcases hdet : detectGo rest [] [l] with ⟨bs, tr⟩
        have hstep : detectGo (l :: rest) (t :: ts) curC = ((t :: ts, curC) :: bs, tr) := by
          simp [detectGo, h, hdet]
        have ihr := ih [] [l] rfl (by simp [h])
        rw [hdet] at ihr
        rw [hstep]
        refine ⟨?_, ihr.2⟩
        simp only [List.all_cons, Bool.and_eq_true]
        exact ⟨by simp [blockOk, hT, hC], ihr.1⟩

/-- **C2.**  The detection phase of `process_all_inputs` partitions the
input lines losslessly: concatenating, in input order, each block's
preceding context lines, the block's own lines, and finally the trailing
context lines reproduces the input line list exactly (so every line
belongs to exactly one context run or block, and blocks are
non-overlapping and in input order); moreover every emitted block is a
non-empty run of table-like lines and every context/trailing line is
non-table-like.  (The source stores blocks and contexts joined with
`"\n"`, a faithful image of these line lists.) -/
theorem C2_detection_partitions_losslessly (lines : List Str) :
    ((detect_blocks lines).1.map fun p => p.2 ++ p.1).flatten ++
        (detect_blocks lines).2 = lines ∧
    (detect_blocks lines).1.all blockOk = true ∧
    (detect_blocks lines).2.all (fun l => !looks_like_table_line l) = true := by
  refine ⟨?_, (detectGo_wf lines [] [] rfl rfl).1, (detectGo_wf lines [] [] rfl rfl).2⟩
  simpa using detectGo_reconstruct lines [] []

/-- **C1.**  The scenario `"A,B,C\n1,2,3\n4,5,6\n"`: one processed
table, row 0 recognized as the header `A,B,C` (visible as the header
line `Index,A,B,C` of the canonical text), 2 data rows, 4 columns
(the synthesized index plus the three data columns), empty preceding
context and empty trailing context. -/
theorem C1_basic_csv_scenario :
    process_all_inputs (chars "A,B,C\n1,2,3\n4,5,6\n") =
      ([([], chars "Index,A,B,C\n1,1,2,3\n2,4,5,6", 2, 4)], []) := by
  decide

/-- **C3.**  Evaluation at the failing input `"1,2,3\n2,5,6"`: the first
column's values form exactly the strict sequence 1..2, yet the code
inserts a fresh `Index` column (col_count 4, duplicating the sequence in
`Column_1`) because `_has_row_index_column` only inspects the first
column's *name* — the 1..N value check promised by its docstring and the
spec is absent from its body. -/
theorem C3_value_sequence_index_not_recognized :
    process_all_inputs (chars "1,2,3\n2,5,6") =
      ([([], chars "Index,Column_1,Column_2,Column_3\n1,1,2,3\n2,2,5,6", 2, 4)], []) ∧
    has_row_index_column [columnName 1, columnName 2, columnName 3] = false := by
  exact ⟨by decide, by decide⟩

/-- **C4 (counterexample).**  Duplicate header cells are *not* replaced
by placeholders: the input `"A,A,B\n1,2,3\n4,5,6"` is returned as one
table whose canonical text carries the duplicated column names
`Index,A,A,B`, so the column names of a returned table need not be
pairwise distinct. -/
theorem C4_counterexample_duplicate_header_survives :
    process_all_inputs (chars "A,A,B\n1,2,3\n4,5,6") =
      ([([], chars "Index,A,A,B\n1,1,2,3\n2,4,5,6", 2, 4)], []) ∧
    csvHeaderNames (chars "Index,A,A,B\n1,1,2,3\n2,4,5,6") =
      [chars "Index", chars "A", chars "A", chars "B"] ∧
    ¬ (csvHeaderNames (chars "Index,A,A,B\n1,1,2,3\n2,4,5,6")).Nodup := by
  exact ⟨by decide, by decide, by decide⟩

theorem digit_toNat_ofNat :
    ∀ d : Fin 10, (Char.ofNat (48 + (d : Nat))).toNat = 48 + (d : Nat) := by
  decide

theorem natVal_append_digit (xs : Str) (c : Char) :
    natVal (xs ++ [c]) = 10 * natVal xs + (c.toNat - 48) := by
  simp [natVal, List.foldl_append]

theorem natVal_natReprAux : ∀ fuel n : Nat, n < fuel → natVal (natReprAux fuel n) = n := by
  intro fuel
  induction fuel with
  | zero => intro n hn; omega
  | succ f ih =>
    intro n hn
    by_cases h10 : n < 10
    · have hc : (Char.ofNat (48 + n)).toNat = 48 + n := digit_toNat_ofNat ⟨n, h10⟩
      simp [natReprAux, h10, natVal, hc]
    · have hrec : n / 10 < f := by omega
      have hmod : n % 10 < 10 := Nat.mod_lt _ (by omega)
      have hc : (Char.ofNat (48 + n % 10)).toNat = 48 + n % 10 :=
        digit_toNat_ofNat ⟨n % 10, hmod⟩
      rw [natReprAux]
      simp only [h10, if_false]
      rw [natVal_append_digit, ih _ hrec, hc]
      omega

theorem natVal_natRepr (n : Nat) : natVal (natRepr n) = n :=
  natVal_natReprAux (n + 1) n (Nat.lt_succ_self n)

theorem natRepr_injective : Function.Injective natRepr := by
  intro a b h
  have ha := natVal_natRepr a
  rw [h, natVal_natRepr] at ha
  omega

theorem columnName_injective : Function.Injective columnName := by
  intro a b h
  exact natRepr_injective (List.append_cancel_left h)


theorem process_blocks_fst (clean : Str → Option (Str × Nat × Nat)) :
    ∀ bs : List (Str × Str),
      (process_blocks clean bs).1 = bs.filterMap (emitOf clean) := by
  intro bs
  induction bs with
  | nil => rfl
  | cons p rest ih =>
    rcases p with ⟨raw, ctx⟩
    rcases hc : clean raw with _ | ⟨csv, r, c⟩
    · simp [process_blocks, hc, List.filterMap_cons, emitOf, ih]
    · by_cases hskip : r = 0 ∨ c = 0 ∨ nonBlankLineCount raw < 2
      · simp [process_blocks, hc, List.filterMap_cons, emitOf, hskip, ih]
      · simp [process_blocks, hc, List.filterMap_cons, emitOf, hskip, ih]

theorem process_blocks_snd (clean : Str → Option (Str × Nat × Nat)) :
    ∀ bs : List (Str × Str),
      (process_blocks clean bs).2 =
        (bs.filter fun p => (emitOf clean p).isNone).map Prod.fst := by
  intro bs
  induction bs with
  | nil => rfl
  | cons p rest ih =>
    rcases p with ⟨raw, ctx⟩
    rcases hc : clean raw with _ | ⟨csv, r, c⟩
    · simp [process_blocks, hc, List.filter_cons, emitOf, ih]
    · by_cases hskip : r = 0 ∨ c = 0 ∨ nonBlankLineCount raw < 2
      · simp [process_blocks, hc, List.filter_cons, emitOf, hskip, ih]
      · simp [process_blocks, hc, List.filter_cons, emitOf, hskip, ih]

theorem emitOf_eq_some {clean : Str → Option (Str × Nat × Nat)} {p : Str × Str}
    {e : Str × Str × Nat × Nat} (h : emitOf clean p = some e) :
    ∃ csv r c, clean p.1 = some (csv, r, c) ∧
      ¬(r = 0 ∨ c = 0 ∨ nonBlankLineCount p.1 < 2) ∧
      e = (pyStrip p.2, csv, r, c) := by
  rw [emitOf] at h
  rcases hc : clean p.1 with _ | ⟨csv, r, c⟩ <;> rw [hc] at h
  · cases h
  · simp only at h
    by_cases hskip : r = 0 ∨ c = 0 ∨ nonBlankLineCount p.1 < 2
    · rw [if_pos hskip] at h; cases h
    · rw [if_neg hskip] at h
      exact ⟨csv, r, c, rfl, hskip, (Option.some.inj h).symm⟩

/-- **C9.**  A failure of the normalizer on one block (modelled as
`clean raw = none`, the `except Exception` arm of lines 145-153) never
propagates: the processed results are exactly those obtained had the
failing block not been present at all, and the offending raw block text
is reattached verbatim to the trailing-context list. -/
theorem C9_block_failure_is_isolated
    (clean : Str → Option (Str × Nat × Nat)) (pre post : List (Str × Str))
    (raw ctx : Str) (hfail : clean raw = none) :
    (process_blocks clean (pre ++ (raw, ctx) :: post)).1 =
      (process_blocks clean (pre ++ post)).1 ∧
    raw ∈ (process_blocks clean (pre ++ (raw, ctx) :: post)).2 := by
  constructor
  · rw [process_blocks_fst, process_blocks_fst, List.filterMap_append,
      List.filterMap_append, List.filterMap_cons]
    simp [emitOf, hfail]
  · rw [process_blocks_snd]
    refine List.mem_map.2 ⟨(raw, ctx), List.mem_filter.2 ⟨?_, ?_⟩, rfl⟩
    · simp
    · simp [emitOf, hfail]

theorem C9_block_failure_is_isolated_witness :
    (process_blocks (fun r => if r = chars "x" then none else some (r, 1, 1))
        ([] ++ (chars "x", chars "c") :: [(chars "a\nb", chars "d")])).1 =
      (process_blocks (fun r => if r = chars "x" then none else some (r, 1, 1))
        ([] ++ [(chars "a\nb", chars "d")])).1 ∧
    chars "x" ∈ (process_blocks (fun r => if r = chars "x" then none else some (r, 1, 1))
        ([] ++ (chars "x", chars "c") :: [(chars "a\nb", chars "d")])).2 :=
  C9_block_failure_is_isolated (fun r => if r = chars "x" then none else some (r, 1, 1))
    [] [(chars "a\nb", chars "d")] (chars "x") (chars "c") (by decide)

/-- **C10.**  Every table entry returned by `process_all_inputs` has
positive row and column counts and stems from a detected block with at
least 2 non-blank lines on which the normalizer succeeded with exactly
those counts; conversely, a detected block whose normalization fails, or
yields zero rows or columns, or which has fewer than 2 non-blank lines,
is never emitted as a table but lands verbatim in the trailing-context
list. -/
theorem C10_emitted_table_conditions (text : Str) :
    (∀ e ∈ (process_all_inputs text).1,
      0 < e.2.2.1 ∧ 0 < e.2.2.2 ∧
      ∃ raw ctx, (raw, ctx) ∈ (detect_tables (splitlines (top_text text))).1 ∧
        2 ≤ nonBlankLineCount raw ∧
        clean_and_format_table raw = some (e.2.1, e.2.2.1, e.2.2.2) ∧
        e.1 = pyStrip ctx) ∧
    (∀ raw ctx, (raw, ctx) ∈ (detect_tables (splitlines (top_text text))).1 →
      emitOf clean_and_format_table (raw, ctx) = none →
      raw ∈ (process_blocks clean_and_format_table
        (detect_tables (splitlines (top_text text))).1).2) := by
  constructor
  · intro e he
    by_cases hempty : text.isEmpty
    · rw [process_all_inputs] at he
      simp [hempty] at he
    · rw [process_all_inputs] at he
      simp only [hempty, Bool.false_eq_true, if_false] at he
      rw [process_blocks_fst] at he
      rcases List.mem_filterMap.1 he with ⟨⟨raw, ctx⟩, hmem, hemit⟩
      rcases emitOf_eq_some hemit with ⟨csv, r, c, hc, hskip, hep⟩
      subst hep
      push_neg at hskip
      simp only at hc hskip
      exact ⟨Nat.pos_of_ne_zero hskip.1, Nat.pos_of_ne_zero hskip.2.1,
        raw, ctx, hmem, by omega, hc, rfl⟩
  · intro raw ctx hmem hemit
    rw [process_blocks_snd]
    refine List.mem_map.2 ⟨(raw, ctx), List.mem_filter.2 ⟨hmem, ?_⟩, rfl⟩
    show (emitOf clean_and_format_table (raw, ctx)).isNone = true
    rw [hemit]
    rfl

set_option maxHeartbeats 2000000 in
theorem C10_emitted_table_conditions_witness :
    0 < (([], chars "Index,A,B,C\n1,1,2,3\n2,4,5,6", 2, 4) :
        Str × Str × Nat × Nat).2.2.1 ∧
    0 < (([], chars "Index,A,B,C\n1,1,2,3\n2,4,5,6", 2, 4) :
        Str × Str × Nat × Nat).2.2.2 ∧
    ∃ raw ctx,
      (raw, ctx) ∈ (detect_tables (splitlines (top_text
        (chars "A,B,C\n1,2,3\n4,5,6\n")))).1 ∧
      2 ≤ nonBlankLineCount raw ∧
      clean_and_format_table raw =
        some (chars "Index,A,B,C\n1,1,2,3\n2,4,5,6", 2, 4) ∧
      ([] : Str) = pyStrip ctx :=
  (C10_emitted_table_conditions (chars "A,B,C\n1,2,3\n4,5,6\n")).1
    ([], chars "Index,A,B,C\n1,1,2,3\n2,4,5,6", 2, 4) (by decide)


theorem fillBlanksFrom_getD : ∀ (hs : List Str) (k i : Nat), i < hs.length →
    (fillBlanksFrom k hs).getD i [] =
      if hs.getD i [] = [] then columnName (k + i + 1) else hs.getD i [] := by
  intro hs
  induction hs with
  | nil => intro k i h; simp at h
  | cons a t ih =>
    intro k i h
    cases i with
    | zero => simp [fillBlanksFrom, List.isEmpty_iff]
    | succ n =>
      simp only [fillBlanksFrom, List.getD_cons_succ]
      rw [ih (k + 1) n (by simpa using h),
        show k + (n + 1) + 1 = k + 1 + n + 1 from by omega]

/-- **C4 (amended).**  Header placeholders as the code implements them:
when a header row is adopted, each *blank* (stripped-empty) cell is
replaced by the positional placeholder `Column_<i+1>` and every other
cell — duplicates included — is kept verbatim; when no header is
detected the synthesized names `Column_1..Column_n` are pairwise
distinct.  (Distinctness of all output column names fails in general —
see the counterexample theorem.) -/
theorem C4_amended_blank_fill_and_placeholders :
    (∀ (hs : List Str) (i : Nat), i < hs.length →
      (fillBlankHeaders hs).getD i [] =
        if hs.getD i [] = [] then columnName (i + 1) else hs.getD i []) ∧
    (∀ n : Nat, ((List.range n).map fun i => columnName (i + 1)).Nodup) := by
  constructor
  · intro hs i h
    simpa using fillBlanksFrom_getD hs 0 i h
  · intro n
    refine List.Nodup.map ?_ (List.nodup_range n)
    intro a b hab
    have := columnName_injective hab
    omega

theorem C4_amended_blank_fill_and_placeholders_witness :
    (fillBlankHeaders [chars "A", [], chars "A"]).getD 1 [] =
      (if ([chars "A", [], chars "A"].getD 1 [] : Str) = [] then columnName (1 + 1)
       else [chars "A", [], chars "A"].getD 1 []) :=
  C4_amended_blank_fill_and_placeholders.1 [chars "A", [], chars "A"] 1 (by decide)

/-- **C6 (counterexample).**  On the first line `"a,b\tc,d\te"` comma
and tab tie at 2 occurrences each; the claim's preference order
`tab > pipe > semicolon > comma` would choose the tab, but the code's
`max` keeps the *first* maximal entry of the delimiter list
`[",", "\t", ";", "|"]`, i.e. the comma. -/
theorem C6_counterexample_tie_prefers_comma :
    specDetectDelimiter ['\t', '|', ';', ','] (chars "a,b\tc,d\te") = Delim.ch '\t' ∧
    detect_delimiter (chars "a,b\tc,d\te") = Delim.ch ',' :=
  ⟨by decide, by decide⟩

theorem pyMax4_char (c1 c2 c3 c4 : Nat) :
    pyMaxBySnd [(',', c1), ('\t', c2), (';', c3), ('|', c4)] =
      if c2 ≤ c1 ∧ c3 ≤ c1 ∧ c4 ≤ c1 then (',', c1)
      else if c3 ≤ c2 ∧ c4 ≤ c2 then ('\t', c2)
      else if c4 ≤ c3 then (';', c3)
      else ('|', c4) := by
  simp only [pyMaxBySnd, List.foldl]
  split_ifs <;> simp_all <;> omega

set_option maxHeartbeats 1000000 in
/-- **C6 (amended).**  `_detect_delimiter` behaves as §4.2 step 4 with
the tie-break preference `comma > tab > semicolon > pipe` (the listing
order of the candidates): multi-space pattern when present and no
candidate reaches 2; otherwise the first candidate carrying the maximal
count; comma when no candidate occurs at all. -/
theorem C6_amended_tie_break_is_list_order (text : Str) :
    detect_delimiter text = specDetectDelimiter [',', '\t', ';', '|'] text := by
  unfold detect_delimiter specDetectDelimiter
  simp only [delimiters, List.map_cons, List.map_nil, List.foldr,
    List.filter_cons, List.filter_nil, pyMax4_char]
  generalize (((splitlines text).map pyStrip).filter fun l => !l.isEmpty).headD
    (pyStrip text) = f
  set c1 := countChar ',' f with hc1
  set c2 := countChar '\t' f with hc2
  set c3 := countChar ';' f with hc3
  set c4 := countChar '|' f with hc4
  by_cases hms : (hasMultiSpaceRun f && decide (c1 ⊔ (c2 ⊔ (c3 ⊔ (c4 ⊔ 0))) < 2)) = true
  · rw [if_pos hms, if_pos hms]
  · rw [if_neg hms, if_neg hms]
    by_cases hA : c2 ≤ c1 ∧ c3 ≤ c1 ∧ c4 ≤ c1
    · rw [if_pos hA]
      by_cases h0 : c1 = 0
      · rw [if_pos (show c1 ⊔ (c2 ⊔ (c3 ⊔ (c4 ⊔ 0))) = 0 from by omega),
          if_neg (show ¬(1 ≤ ((',', c1) : Char × Nat).2) from by simp; omega)]
      · rw [if_neg (show ¬(c1 ⊔ (c2 ⊔ (c3 ⊔ (c4 ⊔ 0))) = 0) from by omega),
          if_pos (show decide (c1 = c1 ⊔ (c2 ⊔ (c3 ⊔ (c4 ⊔ 0)))) = true from by
            simp; omega),
          if_pos (show 1 ≤ ((',', c1) : Char × Nat).2 from by simp; omega)]
        rfl
    · rw [if_neg hA]
      by_cases hB : c3 ≤ c2 ∧ c4 ≤ c2
      · rw [if_pos hB,
          if_neg (show ¬(c1 ⊔ (c2 ⊔ (c3 ⊔ (c4 ⊔ 0))) = 0) from by omega),
          if_neg (show ¬(decide (c1 = c1 ⊔ (c2 ⊔ (c3 ⊔ (c4 ⊔ 0)))) = true) from by
            simp; omega),
          if_pos (show decide (c2 = c1 ⊔ (c2 ⊔ (c3 ⊔ (c4 ⊔ 0)))) = true from by
            simp; omega),
          if_pos (show 1 ≤ (('\t', c2) : Char × Nat).2 from by simp; omega)]
        rfl
      · rw [if_neg hB]
        by_cases hC : c4 ≤ c3
        · rw [if_pos hC,
            if_neg (show ¬(c1 ⊔ (c2 ⊔ (c3 ⊔ (c4 ⊔ 0))) = 0) from by omega),
            if_neg (show ¬(decide (c1 = c1 ⊔ (c2 ⊔ (c3 ⊔ (c4 ⊔ 0)))) = true) from by
              simp; omega),
            if_neg (show ¬(decide (c2 = c1 ⊔ (c2 ⊔ (c3 ⊔ (c4 ⊔ 0)))) = true) from by
              simp; omega),
            if_pos (show decide (c3 = c1 ⊔ (c2 ⊔ (c3 ⊔ (c4 ⊔ 0)))) = true from by
              simp; omega),
            if_pos (show 1 ≤ ((';', c3) : Char × Nat).2 from by simp; omega)]
          rfl
        · rw [if_neg hC,
            if_neg (show ¬(c1 ⊔ (c2 ⊔ (c3 ⊔ (c4 ⊔ 0))) = 0) from by omega),
            if_neg (show ¬(decide (c1 = c1 ⊔ (c2 ⊔ (c3 ⊔ (c4 ⊔ 0)))) = true) from by
              simp; omega),
            if_neg (show ¬(decide (c2 = c1 ⊔ (c2 ⊔ (c3 ⊔ (c4 ⊔ 0)))) = true) from by
              simp; omega),
            if_neg (show ¬(decide (c3 = c1 ⊔ (c2 ⊔ (c3 ⊔ (c4 ⊔ 0)))) = true) from by
              simp; omega),
            if_pos (show decide (c4 = c1 ⊔ (c2 ⊔ (c3 ⊔ (c4 ⊔ 0)))) = true from by
              simp; omega),
            if_pos (show 1 ≤ (('|', c4) : Char × Nat).2 from by simp; omega)]
          rfl

theorem itl_characterization (text : Str) :
    is_table_like text = true ↔
      (pyStrip text ≠ [] ∧ 2 ≤ (itl_lines text).length ∧
        (specDelimSignal ((itl_lines text).take 6) ∨
         specMsSignal ((itl_lines text).take 6) ∨
         specMdSignal (itl_lines text))) := by
  unfold is_table_like
  by_cases h0 : pyStrip text = []
  · simp [h0]
  · rw [if_neg h0]
    by_cases h1 : (itl_lines text).length < 2
    · rw [if_pos h1]
      simp only [Bool.false_eq_true, false_iff, not_and]
      intro _ h2
      omega
    · rw [if_neg h1]
      have hlen : 2 ≤ (itl_lines text).length := by omega
      by_cases hd : (delimiters.any fun d =>
          decide (max 1 (((itl_lines text).take 6).length / 2) ≤
            ((itl_lines text).take 6).countP fun ln => decide (2 ≤ countChar d ln))) = true
      · rw [if_pos hd]
        simp only [true_iff]
        refine ⟨h0, hlen, Or.inl ?_⟩
        rcases List.any_eq_true.1 hd with ⟨d, hdmem, hcond⟩
        exact ⟨d, hdmem, of_decide_eq_true hcond⟩
      · rw [if_neg hd]
        by_cases hm : max 1 (((itl_lines text).take 6).length / 2) ≤
            ((itl_lines text).take 6).countP fun ln => hasIntraMultispace ln
        · rw [if_pos hm]
          simp only [true_iff]
          exact ⟨h0, hlen, Or.inr (Or.inl hm)⟩
        · rw [if_neg hm]
          rcases hls : itl_lines text with _ | ⟨l0, rest0⟩
          · rw [hls] at hlen; simp at hlen
          · rcases rest0 with _ | ⟨l1, rest⟩
            · rw [hls] at hlen; simp at hlen
            · rw [hls] at hd hm hlen
              simp only
              constructor
              · intro htrue
                rcases (by simpa using htrue :
                    List.contains l0 '|' = true ∧ mdDividerMatch l1 = true) with ⟨hp, hdv⟩
                exact ⟨h0, hlen, Or.inr (Or.inr ⟨l0, l1, rest, rfl, hp, hdv⟩)⟩
              · rintro ⟨-, -, hsd | hsm | hsmd⟩
                · rcases hsd with ⟨d, hdmem, hcond⟩
                  exact absurd (List.any_eq_true.2 ⟨d, hdmem, decide_eq_true hcond⟩) hd
                · exact absurd hsm hm
                · rcases hsmd with ⟨a, b, r, heq, hp, hdv⟩
                  obtain ⟨rfl, rfl, -⟩ : l0 = a ∧ l1 = b ∧ rest = r := by
                    simpa using heq
                  simp only [Bool.and_eq_true, hdv, and_true]
                  exact hp


/-- **C7 (counterexample).**  Two sampled lines with comma counts 2 and
9: fewer than 3 qualifying lines and a greater-than-2× spread, so the
claim's delimiter-consistency condition is false; the multi-space and
Markdown-pipe signals are false as well (shown below), yet
`is_table_like` returns `true` — the code requires only
`max(1, ⌊sample/2⌋) = 1` qualifying lines and has no variance guard. -/
theorem C7_counterexample_no_variance_guard :
    is_table_like (chars "ab, cd, ef\n1,2,3,4,5,6,7,8,9,10") = true ∧
    itl_lines (chars "ab, cd, ef\n1,2,3,4,5,6,7,8,9,10") =
      [chars "ab, cd, ef", chars "1,2,3,4,5,6,7,8,9,10"] ∧
    ¬ claimDelimConsistency
        ((itl_lines (chars "ab, cd, ef\n1,2,3,4,5,6,7,8,9,10")).take 6) ∧
    ¬ specMsSignal ((itl_lines (chars "ab, cd, ef\n1,2,3,4,5,6,7,8,9,10")).take 6) ∧
    ¬ specMdSignal (itl_lines (chars "ab, cd, ef\n1,2,3,4,5,6,7,8,9,10")) := by
  refine ⟨by decide, by decide, by decide, by decide, ?_⟩
  rintro ⟨l0, l1, rest, heq, hp, -⟩
  rw [show itl_lines (chars "ab, cd, ef\n1,2,3,4,5,6,7,8,9,10") =
      [chars "ab, cd, ef", chars "1,2,3,4,5,6,7,8,9,10"] from by decide] at heq
  obtain ⟨rfl, -, -⟩ :
      chars "ab, cd, ef" = l0 ∧ chars "1,2,3,4,5,6,7,8,9,10" = l1 ∧ [] = rest := by
    simpa using heq
  exact absurd hp (by decide)

/-- **C7 (amended).**  The full characterization of `is_table_like`:
it returns `true` exactly when the text is non-blank, has at least 2
non-blank lines (after fence stripping), and one of the three signals
fires on the ≤ 6 sampled lines — where the delimiter-consistency signal
requires only that `max(1, ⌊sample/2⌋)` sampled lines carry ≥ 2
occurrences of the same candidate delimiter, with no variance bound
between their counts. -/
theorem C7_amended_half_sample_threshold (text : Str) :
    is_table_like text = true ↔
      (pyStrip text ≠ [] ∧ 2 ≤ (itl_lines text).length ∧
        (specDelimSignal ((itl_lines text).take 6) ∨
         specMsSignal ((itl_lines text).take 6) ∨
         specMdSignal (itl_lines text))) :=
  itl_characterization text

/-- **C8 (counterexample).**  A fence-wrapped comma-separated block: the
inner content has no pipe and no header-divider line (both shown), yet
`is_table_like` returns `true` — fenced content is not restricted to
Markdown pipe tables. -/
theorem C8_counterexample_fenced_csv_detected :
    is_table_like (chars "```\nx, y, z\n1, 2, 3\n```") = true ∧
    itl_lines (chars "```\nx, y, z\n1, 2, 3\n```") =
      [chars "x, y, z", chars "1, 2, 3"] ∧
    ((itl_lines (chars "```\nx, y, z\n1, 2, 3\n```")).all
      fun l => !mdDividerMatch l) = true ∧
    ((itl_lines (chars "```\nx, y, z\n1, 2, 3\n```")).all
      fun l => !(l.contains '|')) = true :=
  ⟨by decide, by decide, by decide, by decide⟩

/-- **C8 (amended).**  For a whole-message fence-wrapped input the
fences are merely stripped: `is_table_like` evaluates the same three
signals on the inner content, so fenced delimiter-consistent or
multi-space content qualifies exactly as unfenced content does (not only
Markdown pipe tables with a divider). -/
theorem C8_amended_fenced_same_signals (text : Str)
    (h0 : pyStrip text ≠ [])
    (hf : (startsWithStr (chars "```") (pyStrip text) &&
        endsWithStr (chars "```") (pyStrip text)) = true) :
    is_table_like text = true ↔
      (2 ≤ (nonBlankLinesOf (pyStrip (((pyStrip text).drop 3).take
          ((pyStrip text).length - 6)))).length ∧
        (specDelimSignal ((nonBlankLinesOf (pyStrip (((pyStrip text).drop 3).take
            ((pyStrip text).length - 6)))).take 6) ∨
         specMsSignal ((nonBlankLinesOf (pyStrip (((pyStrip text).drop 3).take
            ((pyStrip text).length - 6)))).take 6) ∨
         specMdSignal (nonBlankLinesOf (pyStrip (((pyStrip text).drop 3).take
            ((pyStrip text).length - 6)))))) := by
  have hi : itl_inner text =
      pyStrip (((pyStrip text).drop 3).take ((pyStrip text).length - 6)) := by
    simp only [itl_inner]
    rw [if_pos hf]
  have h := itl_characterization text
  simp only [itl_lines] at h
  rw [hi] at h
  rw [h]
  simp [h0]

theorem C8_amended_fenced_same_signals_witness :
    is_table_like (chars "```\nx, y, z\n1, 2, 3\n```") = true ↔
      (2 ≤ (nonBlankLinesOf (pyStrip (((pyStrip (chars "```\nx, y, z\n1, 2, 3\n```")).drop 3).take
          ((pyStrip (chars "```\nx, y, z\n1, 2, 3\n```")).length - 6)))).length ∧
        (specDelimSignal ((nonBlankLinesOf (pyStrip (((pyStrip (chars "```\nx, y, z\n1, 2, 3\n```")).drop 3).take
            ((pyStrip (chars "```\nx, y, z\n1, 2, 3\n```")).length - 6)))).take 6) ∨
         specMsSignal ((nonBlankLinesOf (pyStrip (((pyStrip (chars "```\nx, y, z\n1, 2, 3\n```")).drop 3).take
            ((pyStrip (chars "```\nx, y, z\n1, 2, 3\n```")).length - 6)))).take 6) ∨
         specMdSignal (nonBlankLinesOf (pyStrip (((pyStrip (chars "```\nx, y, z\n1, 2, 3\n```")).drop 3).take
            ((pyStrip (chars "```\nx, y, z\n1, 2, 3\n```")).length - 6)))))) :=
  C8_amended_fenced_same_signals (chars "```\nx, y, z\n1, 2, 3\n```")
    (by decide) (by decide)


/-! ### Whitespace-stripping lemmas for the line-predicate claim -/

theorem dropTrailWs_cons (c : Char) (t : Str) :
    dropTrailWs (c :: t) =
      if dropTrailWs t = [] && isPySpace c then [] else c :: dropTrailWs t := rfl

theorem dropTrailWs_nil_of_allWs :
    ∀ w : Str, (∀ c ∈ w, isPySpace c = true) → dropTrailWs w = [] := by
  intro w
  induction w with
  | nil => intro _; rfl
  | cons c t ih =>
    intro h
    rw [dropTrailWs_cons, ih (fun x hx => h x (List.mem_cons_of_mem c hx)),
      h c (List.mem_cons_self c t)]
    simp

theorem dropTrailWs_append_nil (x w : Str) (hw : dropTrailWs w = []) :
    dropTrailWs (x ++ w) = dropTrailWs x := by
  unfold dropTrailWs at hw ⊢
  rw [List.foldr_append, hw]

theorem dropTrailWs_decomp :
    ∀ m : Str, ∃ w, (∀ c ∈ w, isPySpace c = true) ∧ m = dropTrailWs m ++ w := by
  intro m
  induction m with
  | nil => exact ⟨[], by simp, rfl⟩
  | cons c t ih =>
    rcases ih with ⟨w, hw, hdec⟩
    rw [dropTrailWs_cons]
    by_cases h : (dropTrailWs t = [] && isPySpace c) = true
    · rcases (by simpa using h : dropTrailWs t = [] ∧ isPySpace c = true) with ⟨ht, hc⟩
      rw [ht] at hdec
      refine ⟨c :: w, ?_, ?_⟩
      · intro x hx
        rcases List.mem_cons.mp hx with rfl | hx
        · exact hc
        · exact hw x hx
      · rw [if_pos h]
        simpa using hdec
    · refine ⟨w, hw, ?_⟩
      rw [if_neg h]
      simpa using hdec

theorem dropWhile_ws_append_of_allWs (w x : Str)
    (hw : ∀ c ∈ w, isPySpace c = true) :
    (w ++ x).dropWhile isPySpace = x.dropWhile isPySpace := by
  induction w with
  | nil => rfl
  | cons c t ih =>
    have hc := hw c (List.mem_cons_self c t)
    simp only [List.cons_append, List.dropWhile_cons, hc, if_true]
    exact ih fun y hy => hw y (List.mem_cons_of_mem c hy)

theorem pyStrip_cons_ws (c : Char) (p : Str) (hc : isPySpace c = true) :
    pyStrip (c :: p) = pyStrip p := by
  simp [pyStrip, List.dropWhile_cons, hc]

theorem pyStrip_decomp (l : Str) :
    ∃ w1 w2, (∀ c ∈ w1, isPySpace c = true) ∧ (∀ c ∈ w2, isPySpace c = true) ∧
      l = w1 ++ pyStrip l ++ w2 := by
  rcases dropTrailWs_decomp (l.dropWhile isPySpace) with ⟨w2, hw2, hdec⟩
  refine ⟨l.takeWhile isPySpace, w2, ?_, hw2, ?_⟩
  · intro c hc
    exact List.mem_takeWhile_imp hc
  · rw [show pyStrip l = dropTrailWs (l.dropWhile isPySpace) from rfl,
      List.append_assoc, ← hdec]
    exact (List.takeWhile_append_dropWhile isPySpace l).symm

theorem pyStrip_nil_of_allWs (w : Str) (hw : ∀ c ∈ w, isPySpace c = true) :
    pyStrip w = [] := by
  rw [pyStrip, List.dropWhile_eq_nil_iff.mpr fun c hc => hw c hc]
  rfl

theorem pyStrip_append_ws_char (p : Str) (c : Char) (hc : isPySpace c = true) :
    pyStrip (p ++ [c]) = pyStrip p := by
  have hone : dropTrailWs [c] = [] := by
    rw [dropTrailWs_cons]
    simp [hc, dropTrailWs]
  by_cases hp : p.dropWhile isPySpace = []
  · have h1 : pyStrip p = [] := by rw [pyStrip, hp]; rfl
    have hallp : ∀ x ∈ p, isPySpace x = true := by
      intro x hx
      exact List.dropWhile_eq_nil_iff.mp hp x hx
    have : ∀ x ∈ p ++ [c], isPySpace x = true := by
      intro x hx
      rcases List.mem_append.mp hx with hx | hx
      · exact hallp x hx
      · rcases List.mem_singleton.mp hx with rfl
        exact hc
    rw [pyStrip_nil_of_allWs _ this, h1]
  · rw [pyStrip, List.dropWhile_append]
    have hne : (List.dropWhile isPySpace p).isEmpty = false := by
      simpa [List.isEmpty_iff] using hp
    rw [hne]
    simp only [Bool.false_eq_true, if_false]
    rw [dropTrailWs_append_nil _ _ hone]
    rfl


/-! ### Split/cell-count lemmas for the line-predicate claim -/

theorem splitOnChar_ne_nil (d : Char) : ∀ l : Str, splitOnChar d l ≠ [] := by
  intro l
  cases l with
  | nil => simp [splitOnChar]
  | cons c cs =>
    rw [splitOnChar]
    cases h : splitOnChar d cs with
    | nil => simp
    | cons p ps =>
      simp only
      by_cases hcd : c = d
      · rw [if_pos hcd]
        simp
      · rw [if_neg hcd]
        simp

theorem splitOnChar_cons_eq (d c : Char) (cs : Str) :
    ∃ p ps, splitOnChar d cs = p :: ps ∧
      splitOnChar d (c :: cs) = if c = d then [] :: p :: ps else (c :: p) :: ps := by
  cases h : splitOnChar d cs with
  | nil => exact absurd h (splitOnChar_ne_nil d cs)
  | cons p ps =>
    refine ⟨p, ps, rfl, ?_⟩
    rw [splitOnChar, h]

theorem nonEmptyCellsOn_cons_d (d : Char) (cs : Str) :
    nonEmptyCellsOn d (d :: cs) = nonEmptyCellsOn d cs := by
  rcases splitOnChar_cons_eq d d cs with ⟨p, ps, h1, h2⟩
  rw [nonEmptyCellsOn, h2, if_pos rfl]
  simp [nonEmptyCellsOn, h1, pyStrip, dropTrailWs]

theorem nonEmptyCellsOn_cons_ws (d c : Char) (cs : Str) (hcd : ¬c = d)
    (hc : isPySpace c = true) :
    nonEmptyCellsOn d (c :: cs) = nonEmptyCellsOn d cs := by
  rcases splitOnChar_cons_eq d c cs with ⟨p, ps, h1, h2⟩
  rw [nonEmptyCellsOn, h2, if_neg hcd]
  simp only [List.map_cons, List.countP_cons, nonEmptyCellsOn, h1,
    pyStrip_cons_ws c p hc]

theorem cells_ws_front (d : Char) :
    ∀ w x : Str, (∀ c ∈ w, isPySpace c = true) →
      nonEmptyCellsOn d (w ++ x) = nonEmptyCellsOn d x := by
  intro w
  induction w with
  | nil => intro x _; rfl
  | cons c t ih =>
    intro x hw
    have hc := hw c (List.mem_cons_self c t)
    have ht := fun y hy => hw y (List.mem_cons_of_mem c hy)
    rw [List.cons_append]
    by_cases hcd : c = d
    · subst hcd
      rw [nonEmptyCellsOn_cons_d, ih x ht]
    · rw [nonEmptyCellsOn_cons_ws d c _ hcd hc, ih x ht]

theorem splitOnChar_append_cons_d (d : Char) :
    ∀ a b : Str, splitOnChar d (a ++ d :: b) = splitOnChar d a ++ splitOnChar d b := by
  intro a
  induction a with
  | nil =>
    intro b
    rcases splitOnChar_cons_eq d d b with ⟨p, ps, h1, h2⟩
    rw [List.nil_append, h2, if_pos rfl, h1]
    rfl
  | cons c a' ih =>
    intro b
    rcases splitOnChar_cons_eq d c (a' ++ d :: b) with ⟨p, ps, h1, h2⟩
    rcases splitOnChar_cons_eq d c a' with ⟨q, qs, h3, h4⟩
    rw [List.cons_append, h2, h4]
    rw [ih b, h3] at h1
    obtain ⟨rfl, rfl⟩ : q = p ∧ qs ++ splitOnChar d b = ps := by simpa using h1
    by_cases hcd : c = d
    · rw [if_pos hcd, if_pos hcd]
      simp
    · rw [if_neg hcd, if_neg hcd]
      simp


theorem splitOnChar_append_single_ne (d c : Char) (hcd : ¬c = d) :
    ∀ y : Str, splitOnChar d (y ++ [c]) = appendLastOne c (splitOnChar d y) := by
  intro y
  induction y with
  | nil => simp [splitOnChar, hcd, appendLastOne]
  | cons e y' ih =>
    rcases splitOnChar_cons_eq d e (y' ++ [c]) with ⟨p, ps, h1, h2⟩
    rcases splitOnChar_cons_eq d e y' with ⟨q, qs, h3, h4⟩
    rw [List.cons_append, h2, h4]
    rw [ih, h3] at h1
    by_cases hed : e = d
    · rw [if_pos hed, if_pos hed]
      rw [show appendLastOne c ([] :: q :: qs) = [] :: appendLastOne c (q :: qs) from rfl,
        ← h1]
    · rw [if_neg hed, if_neg hed]
      cases qs with
      | nil =>
        obtain ⟨rfl, rfl⟩ : q ++ [c] = p ∧ ([] : List Str) = ps := by
          simpa [appendLastOne] using h1
        simp [appendLastOne]
      | cons r rs =>
        obtain ⟨rfl, rfl⟩ : q = p ∧ appendLastOne c (r :: rs) = ps := by
          simpa [appendLastOne] using h1
        simp [appendLastOne]

theorem countP_appendLastOne (c : Char) (hc : isPySpace c = true) :
    ∀ parts : List Str,
      ((appendLastOne c parts).map pyStrip).countP (fun p => p ≠ []) =
        (parts.map pyStrip).countP (fun p => p ≠ []) := by
  intro parts
  induction parts with
  | nil =>
    simp [appendLastOne, pyStrip_nil_of_allWs [c] (by simpa using hc)]
  | cons p ps ih =>
    cases ps with
    | nil => simp [appendLastOne, pyStrip_append_ws_char p c hc]
    | cons r rs =>
      rw [show appendLastOne c (p :: r :: rs) = p :: appendLastOne c (r :: rs) from rfl]
      simp only [List.map_cons, List.countP_cons]
      rw [show ((appendLastOne c (r :: rs)).map pyStrip).countP (fun p => p ≠ []) =
        (((r :: rs)).map pyStrip).countP (fun p => p ≠ []) from ih]
      simp only [List.map_cons, List.countP_cons]

theorem cells_append_ws_char (d : Char) (y : Str) (c : Char) (hc : isPySpace c = true) :
    nonEmptyCellsOn d (y ++ [c]) = nonEmptyCellsOn d y := by
  by_cases hcd : c = d
  · subst hcd
    rw [show nonEmptyCellsOn c (y ++ [c]) =
        ((splitOnChar c (y ++ c :: [])).map pyStrip).countP (fun p => p ≠ []) from rfl,
      splitOnChar_append_cons_d]
    rw [List.map_append, List.countP_append]
    simp [splitOnChar, pyStrip, dropTrailWs, nonEmptyCellsOn]
  · rw [nonEmptyCellsOn, splitOnChar_append_single_ne d c hcd,
      countP_appendLastOne c hc]
    rfl

theorem cells_ws_suffix (d : Char) (w : Str) (hw : ∀ c ∈ w, isPySpace c = true) :
    ∀ y : Str, nonEmptyCellsOn d (y ++ w) = nonEmptyCellsOn d y := by
  induction w using List.reverseRecOn with
  | nil => intro y; simp
  | append_singleton w' c ih =>
    intro y
    rw [← List.append_assoc,
      cells_append_ws_char d (y ++ w') c (hw c (by simp)),
      ih (fun x hx => hw x (by simp [hx])) y]

theorem cells_pyStrip (d : Char) (l : Str) :
    nonEmptyCellsOn d (pyStrip l) = nonEmptyCellsOn d l := by
  rcases pyStrip_decomp l with ⟨w1, w2, h1, h2, hdec⟩
  conv_rhs => rw [hdec]
  rw [List.append_assoc, cells_ws_front d w1 _ h1, cells_ws_suffix d w2 h2]

theorem countChar_pyStrip_le (d : Char) (l : Str) :
    countChar d (pyStrip l) ≤ countChar d l := by
  rcases pyStrip_decomp l with ⟨w1, w2, _, _, hdec⟩
  calc countChar d (pyStrip l)
      ≤ countChar d w1 + (countChar d (pyStrip l) + countChar d w2) := by omega
    _ = countChar d l := by
        conv_rhs => rw [hdec]
        simp [countChar, List.count_append]

theorem splitOnChar_length (d : Char) : ∀ l : Str,
    (splitOnChar d l).length = countChar d l + 1 := by
  intro l
  induction l with
  | nil => simp [splitOnChar, countChar]
  | cons c cs ih =>
    rcases splitOnChar_cons_eq d c cs with ⟨p, ps, h1, h2⟩
    have ihl : (p :: ps).length = countChar d cs + 1 := by rw [← h1]; exact ih
    rw [h2]
    by_cases hcd : c = d
    · subst hcd
      rw [if_pos rfl]
      simp only [List.length_cons] at ihl ⊢
      simp only [countChar, List.count_cons_self] at ihl ⊢
      omega
    · rw [if_neg hcd]
      simp only [List.length_cons] at ihl ⊢
      have : countChar d (c :: cs) = countChar d cs := by
        simp [countChar, List.count_cons, hcd]
      rw [this]
      omega

theorem cells_le_count_succ (d : Char) (l : Str) :
    nonEmptyCellsOn d l ≤ countChar d l + 1 := by
  calc nonEmptyCellsOn d l
      ≤ ((splitOnChar d l).map pyStrip).length := List.countP_le_length _
    _ = (splitOnChar d l).length := List.length_map _ _
    _ = countChar d l + 1 := splitOnChar_length d l


theorem mem_pyStrip_iff (c : Char) (hc : isPySpace c = false) (l : Str) :
    c ∈ pyStrip l ↔ c ∈ l := by
  rcases pyStrip_decomp l with ⟨w1, w2, h1, h2, hdec⟩
  constructor
  · intro h
    rw [hdec]
    simp [h]
  · intro h
    rw [hdec] at h
    rcases (by simpa using h : c ∈ w1 ∨ c ∈ pyStrip l ∨ c ∈ w2) with h | h | h
    · simp [h1 c h] at hc
    · exact h
    · simp [h2 c h] at hc

theorem contains_pyStrip (c : Char) (hc : isPySpace c = false) (l : Str) :
    (pyStrip l).contains c = l.contains c := by
  by_cases h : c ∈ l
  · rw [show (pyStrip l).contains c = true by
        simp [(mem_pyStrip_iff c hc l).mpr h],
      show l.contains c = true by simp [h]]
  · have h2 : ¬c ∈ pyStrip l := fun hx => h ((mem_pyStrip_iff c hc l).mp hx)
    rw [show l.contains c = false by simpa using h,
      show (pyStrip l).contains c = false by simpa using h2]

theorem startsWith_pipe_contains (s : Str) :
    (startsWithStr ['|'] s || s.contains '|') = s.contains '|' := by
  cases s with
  | nil => rfl
  | cons c cs =>
    by_cases h : c = '|'
    · subst h
      simp [startsWithStr, List.contains_cons]
    · simp [startsWithStr, fun hx : ('|' : Char) = c => h hx.symm]

theorem wsThenNonspace_allWs (w : Str) :
    (∀ c ∈ w, isPySpace c = true) → ∀ n, wsThenNonspace n w = false := by
  induction w with
  | nil => intro _ n; rfl
  | cons c cs ih =>
    intro hw n
    have hc := hw c (List.mem_cons_self c cs)
    simp only [wsThenNonspace, hc, if_true]
    exact ih (fun x hx => hw x (List.mem_cons_of_mem c hx)) (n + 1)

theorem wsThenNonspace_append_allWs (w : Str) (hw : ∀ c ∈ w, isPySpace c = true) :
    ∀ (cs : Str) (n : Nat), wsThenNonspace n (cs ++ w) = wsThenNonspace n cs := by
  intro cs
  induction cs with
  | nil =>
    intro n
    rw [List.nil_append, wsThenNonspace_allWs w hw n]
    rfl
  | cons c cs' ih =>
    intro n
    rw [List.cons_append]
    by_cases hc : isPySpace c = true
    · simp only [wsThenNonspace, hc, if_true]
      exact ih (n + 1)
    · simp only [wsThenNonspace, hc]
      rfl

theorem hasIntra_allWs (w : Str) :
    (∀ c ∈ w, isPySpace c = true) → hasIntraMultispace w = false := by
  induction w with
  | nil => intro _; rfl
  | cons c cs ih =>
    intro hw
    have hc := hw c (List.mem_cons_self c cs)
    simp [hasIntraMultispace, hc, ih (fun x hx => hw x (List.mem_cons_of_mem c hx))]

theorem hasIntra_ws_cons (c : Char) (hc : isPySpace c = true) (l : Str) :
    hasIntraMultispace (c :: l) = hasIntraMultispace l := by
  simp [hasIntraMultispace, hc]

theorem hasIntra_ws_front (w : Str) :
    (∀ c ∈ w, isPySpace c = true) → ∀ l : Str,
      hasIntraMultispace (w ++ l) = hasIntraMultispace l := by
  induction w with
  | nil => intro _ l; rfl
  | cons c cs ih =>
    intro hw l
    rw [List.cons_append, hasIntra_ws_cons c (hw c (List.mem_cons_self c cs)),
      ih (fun x hx => hw x (List.mem_cons_of_mem c hx)) l]

theorem hasIntra_append_allWs (w : Str) (hw : ∀ c ∈ w, isPySpace c = true) :
    ∀ l : Str, hasIntraMultispace (l ++ w) = hasIntraMultispace l := by
  intro l
  induction l with
  | nil =>
    rw [List.nil_append, hasIntra_allWs w hw]
    rfl
  | cons c cs ih =>
    rw [List.cons_append]
    simp only [hasIntraMultispace]
    rw [wsThenNonspace_append_allWs w hw cs 0, ih]

theorem hasIntra_pyStrip (l : Str) :
    hasIntraMultispace (pyStrip l) = hasIntraMultispace l := by
  rcases pyStrip_decomp l with ⟨w1, w2, h1, h2, hdec⟩
  conv_rhs => rw [hdec]
  rw [List.append_assoc, hasIntra_ws_front w1 h1 (pyStrip l ++ w2),
    hasIntra_append_allWs w2 h2 (pyStrip l)]

theorem delim_clause_strip (d : Char) (line : Str) :
    (decide (2 ≤ countChar d (pyStrip line)) &&
        decide (3 ≤ nonEmptyCellsOn d (pyStrip line)))
      = (decide (2 ≤ countChar d line) && decide (3 ≤ nonEmptyCellsOn d line)) := by
  rw [cells_pyStrip]
  by_cases h3 : 3 ≤ nonEmptyCellsOn d line
  · have hc1 : 2 ≤ countChar d (pyStrip line) := by
      have hle := cells_le_count_succ d (pyStrip line)
      rw [cells_pyStrip] at hle
      omega
    have hc2 : 2 ≤ countChar d line := le_trans hc1 (countChar_pyStrip_le d line)
    simp [h3, hc1, hc2]
  · simp [h3]

theorem delims_any_strip (line : Str) :
    (delimiters.any fun d =>
        2 ≤ countChar d (pyStrip line) && 3 ≤ nonEmptyCellsOn d (pyStrip line))
      = (delimiters.any fun d =>
        2 ≤ countChar d line && 3 ≤ nonEmptyCellsOn d line) := by
  simp only [delimiters, List.any_cons, List.any_nil, Bool.or_false]
  rw [delim_clause_strip, delim_clause_strip, delim_clause_strip, delim_clause_strip]


/-- C5: `_looks_like_table_line` agrees with the claim's description on
every line: pipe lines need ≥ 2 non-empty pipe cells, otherwise a
delimiter with ≥ 2 occurrences must yield ≥ 3 non-empty cells,
otherwise an internal multi-space run must split the content into ≥ 3
non-empty cells, and blank lines are never table-like. -/
theorem C5_line_predicate_as_claimed (line : Str) :
    looks_like_table_line line = claimTableLikeLine line := by
  simp only [looks_like_table_line, claimTableLikeLine]
  by_cases h0 : pyStrip line = []
  · rw [if_pos h0, if_pos h0]
  · rw [if_neg h0, if_neg h0]
    rw [startsWith_pipe_contains (pyStrip line),
      contains_pyStrip '|' (by decide) line]
    by_cases hp : line.contains '|' = true
    · rw [if_pos hp, if_pos hp]
    · rw [if_neg hp, if_neg hp]
      rw [delims_any_strip line]
      by_cases hd : (delimiters.any fun d =>
          2 ≤ countChar d line && 3 ≤ nonEmptyCellsOn d line) = true
      · rw [if_pos hd, if_pos hd]
      · rw [if_neg hd, if_neg hd]
        rw [hasIntra_pyStrip line]

end TableBeautifier
